import Mathlib

/-!
Verification of the qube group-ordered job queue (src/src/Queue.js and its
store-side scripts) against its specification. The key-value store (Redis) is
embedded as explicit state: hashes, lists, sets and a job-id counter. The Lua
scripts that belong to the repository but are not present under src/
(enqueue.lua, dequeue.lua) are modelled from the spec, as marked on their
definitions; get_status.lua is present and embedded from its source.
-/

namespace Qube

/-- The store state visible to the scripts: hashes (HSET/HGET), lists
(RPUSH/LPOP), sets (SADD) and the monotonic job-id counter used by the
enqueue script. -/
structure Store where
  hashes : String → String → Option String
  lists : String → List String
  sets : String → List String
  counter : Nat

/-- The empty store. -/
def store0 : Store :=
  { hashes := fun _ _ => none, lists := fun _ => [], sets := fun _ => [], counter := 0 }

/-- HSET on one hash field. -/
def hsetS (st : Store) (k f v : String) : Store :=
  { st with hashes := fun kk ff => if kk = k ∧ ff = f then some v else st.hashes kk ff }

/-- Key of the Job record hash, as read by get_status.lua:
"qube:queue:job:" ++ jobId. -/
def jobRecordKey (jobId : String) : String := "qube:queue:job:" ++ jobId

/-- Group list key, as computed in Queue.js add and startGroupConsumer. -/
def groupKeyOf (q g : String) : String := "qube:" ++ q ++ ":group:" ++ g

/-- Modelled from the spec: enqueue.lua is not under src/. Spec section 4.1:
allocate a fresh jobId from a monotonic counter; write the Job record with
status pending, progress 0, group and data fields; append jobId to the group
list at groupKey; add groupKey to the set at queueKey; return the jobId. -/
def enqueueScript (st : Store) (queueKey groupKey payloadJSON groupName : String) :
    String × Store :=
  let jobId := Nat.repr (st.counter + 1)
  let st1 := { st with counter := st.counter + 1 }
  let st2 := hsetS st1 (jobRecordKey jobId) "status" "pending"
  let st3 := hsetS st2 (jobRecordKey jobId) "progress" "0"
  let st4 := hsetS st3 (jobRecordKey jobId) "group" groupName
  let st5 := hsetS st4 (jobRecordKey jobId) "data" payloadJSON
  let st6 := { st5 with
    lists := fun k => if k = groupKey then st5.lists groupKey ++ [jobId] else st5.lists k }
  let st7 := { st6 with
    sets := fun k =>
      if k = queueKey then
        (if groupKey ∈ st6.sets queueKey then st6.sets queueKey
         else st6.sets queueKey ++ [groupKey])
      else st6.sets k }
  (jobId, st7)

/-- Modelled from the spec: dequeue.lua is not under src/. Spec section 4.1:
pop the head of the group list (nil if empty); set the job's status from
pending to active; return (jobId, stored payload, groupName). -/
def dequeueScript (st : Store) (groupKey : String) :
    Option (String × String × String) × Store :=
  match st.lists groupKey with
  | [] => (none, st)
  | jobId :: rest =>
      let st1 := { st with lists := fun k => if k = groupKey then rest else st.lists k }
      let payload := (st1.hashes (jobRecordKey jobId) "data").getD ""
      let gname := (st1.hashes (jobRecordKey jobId) "group").getD ""
      let st2 := if st1.hashes (jobRecordKey jobId) "status" = some "pending"
                 then hsetS st1 (jobRecordKey jobId) "status" "active" else st1
      (some (jobId, payload, gname), st2)

/-- A trace operation against the store: an enqueue-script call or a
dequeue-script call. -/
inductive QOp
  | enq (queueKey groupKey payloadJSON groupName : String)
  | deq (groupKey : String)

/-- Run a trace of script calls against the store. -/
def runOps : Store → List QOp → Store
  | st, [] => st
  | st, QOp.enq qk gk p gn :: rest => runOps (enqueueScript st qk gk p gn).2 rest
  | st, QOp.deq gk :: rest => runOps (dequeueScript st gk).2 rest

/-- The jobIds appended to group list G by the enqueue script over a trace,
in order. -/
def enqIds : Store → String → List QOp → List String
  | _, _, [] => []
  | st, G, QOp.enq qk gk p gn :: rest =>
      (if gk = G then [(enqueueScript st qk gk p gn).1] else []) ++
        enqIds (enqueueScript st qk gk p gn).2 G rest
  | st, G, QOp.deq gk :: rest => enqIds (dequeueScript st gk).2 G rest

/-- The jobIds returned by the dequeue script on group list G over a trace,
in order. -/
def deqIds : Store → String → List QOp → List String
  | _, _, [] => []
  | st, G, QOp.enq qk gk p gn :: rest => deqIds (enqueueScript st qk gk p gn).2 G rest
  | st, G, QOp.deq gk :: rest =>
      (if gk = G then ((dequeueScript st gk).1.map (fun r => r.1)).toList else []) ++
        deqIds (dequeueScript st gk).2 G rest

/-- Embedding of updateProgress (Queue.js 216-223): HSET of the progress field
on the hash at key "qube:job:" ++ jobId. -/
def updateProgress (st : Store) (jobId value : String) : Store :=
  hsetS st ("qube:job:" ++ jobId) "progress" value

/-- Embedding of get_status.lua: HGET of the status field at the Job record
key "qube:queue:job:" ++ jobId. -/
def getStatusScript (st : Store) (jobId : String) : Option String :=
  st.hashes (jobRecordKey jobId) "status"

/-- A concrete trace for evaluating the FIFO result: two enqueues into one
group followed by three dequeues. -/
def opsW : List QOp :=
  [QOp.enq "qube:CHANNEL:groups" (groupKeyOf "CHANNEL" "G") "\"m1\"" "G",
   QOp.enq "qube:CHANNEL:groups" (groupKeyOf "CHANNEL" "G") "\"m2\"" "G",
   QOp.deq (groupKeyOf "CHANNEL" "G"),
   QOp.deq (groupKeyOf "CHANNEL" "G"),
   QOp.deq (groupKeyOf "CHANNEL" "G")]

/-- The four Lua scripts managed by the registry (Queue.js init). -/
inductive ScriptKey
  | enqueue
  | dequeue
  | updateStatus
  | getStatus
deriving DecidableEq, Repr

/-- The registry fields of the Queue object: the cached digest
this[scriptKey ++ "Sha"] and the retained source this[scriptKey ++ "Script"]
for each script (none models an undefined field). -/
structure Registry where
  sha : ScriptKey → String
  src : ScriptKey → Option String

/-- The store's script cache, with an optional injected fault that makes any
evalsha fail with that message (models transient store errors). -/
structure ScriptCache where
  loaded : String → Bool
  fault : Option String

/-- The digest SCRIPT LOAD computes for a source (injective tag model). -/
def digestOf (s : String) : String := "sha1:" ++ s

/-- SCRIPT LOAD: returns the digest and marks it loaded. -/
def scriptLoad (c : ScriptCache) (s : String) : String × ScriptCache :=
  (digestOf s, { c with loaded := fun d => d = digestOf s || c.loaded d })

/-- Result of an evalsha round-trip: success, a NOSCRIPT error, or another
error message (the code distinguishes them by err.message.includes). -/
inductive EvalResult (α : Type)
  | ok (v : α)
  | noscript
  | err (msg : String)
deriving DecidableEq, Repr

/-- EVALSHA against the script cache: an injected fault surfaces as an
ordinary error; otherwise the script runs iff its digest is loaded. -/
def evalsha {α : Type} (c : ScriptCache) (run : String → α) (sha : String) :
    EvalResult α :=
  match c.fault with
  | some m => EvalResult.err m
  | none => if c.loaded sha then EvalResult.ok (run sha) else EvalResult.noscript

/-- Embedding of safeEvalsha (Queue.js 108-122): evalsha on the cached digest;
if the store reports NOSCRIPT, SCRIPT LOAD the retained source
this[scriptKey ++ "Script"], update the cached digest, and retry once; any
other error is re-thrown unchanged. An undefined source field would make the
SCRIPT LOAD call itself throw. -/
def safeEvalsha {α : Type} (reg : Registry) (c : ScriptCache) (run : String → α)
    (key : ScriptKey) : EvalResult α × Registry × ScriptCache :=
  match evalsha c run (reg.sha key) with
  | EvalResult.ok v => (EvalResult.ok v, reg, c)
  | EvalResult.noscript =>
      match reg.src key with
      | some s =>
          let d := (scriptLoad c s).1
          let c2 := (scriptLoad c s).2
          let reg2 := { reg with sha := fun k => if k = key then d else reg.sha k }
          (evalsha c2 run d, reg2, c2)
      | none => (EvalResult.err "ERR value is not a valid string", reg, c)
  | EvalResult.err m => (EvalResult.err m, reg, c)

/-- Embedding of init (Queue.js 54-74): read the four script files into the
this[scriptKey ++ "Script"] fields, then SCRIPT LOAD each one and cache the
digests in this[scriptKey ++ "Sha"]. -/
def initRegistry (files : ScriptKey → String) (c : ScriptCache) :
    Registry × ScriptCache :=
  let r1 := scriptLoad c (files ScriptKey.enqueue)
  let r2 := scriptLoad r1.2 (files ScriptKey.dequeue)
  let r3 := scriptLoad r2.2 (files ScriptKey.updateStatus)
  let r4 := scriptLoad r3.2 (files ScriptKey.getStatus)
  ({ sha := fun k =>
        match k with
        | ScriptKey.enqueue => r1.1
        | ScriptKey.dequeue => r2.1
        | ScriptKey.updateStatus => r3.1
        | ScriptKey.getStatus => r4.1,
     src := fun k => some (files k) }, r4.2)

/-- Concrete script sources for evaluation. -/
def files0 : ScriptKey → String
  | ScriptKey.enqueue => "enqueue source"
  | ScriptKey.dequeue => "dequeue source"
  | ScriptKey.updateStatus => "update source"
  | ScriptKey.getStatus => "status source"

/-- A script cache with nothing loaded and no fault. -/
def cache0 : ScriptCache := { loaded := fun _ => false, fault := none }

/-- A script cache that fails every evalsha with a non-NOSCRIPT error. -/
def cacheFault : ScriptCache := { loaded := fun _ => false, fault := some "boom" }

/-- A concrete registry whose cached digest is stale but whose source field is
populated. -/
def regStale : Registry :=
  { sha := fun _ => "sha1:old", src := fun k => some (files0 k) }

/-- A consumer record stored in the shared activeGroupConsumers hash. -/
structure ConsumerInfo where
  owner : String
  shouldStop : Bool
  workerId : String
deriving DecidableEq, Repr

/-- Lookup in an association list with string keys (hash field read,
Map.get). -/
def lookupA {β : Type} : List (String × β) → String → Option β
  | [], _ => none
  | e :: rest, k => if e.1 = k then some e.2 else lookupA rest k

/-- Upsert in an association list (hash field write, Map.set). -/
def setA {β : Type} : List (String × β) → String → β → List (String × β)
  | [], k, v => [(k, v)]
  | e :: rest, k, v => if e.1 = k then (k, v) :: rest else e :: setA rest k v

/-- Delete from an association list (hash field delete, Map.delete). -/
def eraseA {β : Type} : List (String × β) → String → List (String × β)
  | [], _ => []
  | e :: rest, k => if e.1 = k then eraseA rest k else e :: eraseA rest k

/-- Node-local scheduler state of one Queue instance: the shared
activeGroupConsumers hash as this node observes it, the in-process pending
admissions, and the localTimers map. Timer handles are modelled by generation
numbers and Math.random worker ids by a fresh counter. -/
structure NodeState where
  instanceId : String
  activeGroupConsumers : List (String × ConsumerInfo)
  pendingGroupConsumers : List (String × String × String)
  localTimers : List (String × Nat)
  timerSeed : Nat
  widSeed : Nat
deriving DecidableEq, Repr

/-- Field name in activeGroupConsumers for one worker. -/
def consumerKey (q g w : String) : String :=
  "qube:" ++ q ++ ":" ++ g ++ ":" ++ w

/-- The field-name filter used by countActiveConsumersForGroup. -/
def groupPre (q g : String) : String := "qube:" ++ q ++ ":" ++ g ++ ":"

/-- String.startsWith, computed structurally on the character lists. -/
def strIsPre (p s : String) : Bool := p.data.isPrefixOf s.data

/-- Count of fields whose name has the given group prefix (HKEYS + filter +
length, Queue.js 179-186). -/
def countA : List (String × ConsumerInfo) → String → Nat
  | [], _ => 0
  | e :: rest, pre => (if strIsPre pre e.1 then 1 else 0) + countA rest pre

def countActiveConsumersForGroup (s : NodeState) (q g : String) : Nat :=
  countA s.activeGroupConsumers (groupPre q g)

/-- Embedding of startGroupConsumer (Queue.js 293-316): default the group key,
read the global count; at or above quota, queue the request as pending unless
it already came from the pending list; otherwise create the consumer record,
arm the inactivity timer and record it in localTimers (the spawned worker loop
itself is modelled separately). -/
def startGroupConsumer (s : NodeState) (queueName groupName : String)
    (groupKey0 : Option String) (fromPending : Bool) (nConsumers : Nat) : NodeState :=
  let groupKey := groupKey0.getD (groupKeyOf queueName groupName)
  let count := countActiveConsumersForGroup s queueName groupName
  if nConsumers ≤ count then
    if fromPending then s
    else
      let pend2 := s.pendingGroupConsumers ++ [(queueName, groupName, groupKey)]
      { s with pendingGroupConsumers := pend2 }
  else
    let workerId := "w" ++ Nat.repr s.widSeed
    let key := consumerKey queueName groupName workerId
    let info : ConsumerInfo :=
      { owner := s.instanceId, shouldStop := false, workerId := workerId }
    let act2 := setA s.activeGroupConsumers key info
    let lt2 := setA s.localTimers key s.timerSeed
    { s with widSeed := s.widSeed + 1, activeGroupConsumers := act2,
             localTimers := lt2, timerSeed := s.timerSeed + 1 }

/-- Embedding of the inactivity-timer callback (Queue.js 232-238 and 306-312):
re-read the record; if present and not already stopping, set shouldStop and
write it back. The localTimers entry is not removed by the callback. -/
def timerFire (s : NodeState) (q g wid : String) : NodeState :=
  match lookupA s.activeGroupConsumers (consumerKey q g wid) with
  | some info =>
      if info.shouldStop then s
      else
        let info2 : ConsumerInfo := { info with shouldStop := true }
        let act2 := setA s.activeGroupConsumers (consumerKey q g wid) info2
        { s with activeGroupConsumers := act2 }
  | none => s

/-- Embedding of resetGroupConsumerTimer (Queue.js 225-241): if the record
exists and this node owns it, clear any existing timer and arm a fresh one;
the code performs no shouldStop check here. -/
def resetGroupConsumerTimer (s : NodeState) (q g wid : String) : NodeState :=
  match lookupA s.activeGroupConsumers (consumerKey q g wid) with
  | some info =>
      if info.owner = s.instanceId then
        let lt2 := setA s.localTimers (consumerKey q g wid) s.timerSeed
        { s with localTimers := lt2, timerSeed := s.timerSeed + 1 }
      else s
  | none => s

/-- Embedding of checkGroupConsumerInactivity (Queue.js 188-191): the JS
expression consumerInfo && consumerInfo.shouldStop is falsy when the record
is absent. -/
def checkGroupConsumerInactivity (s : NodeState) (q g wid : String) : Bool :=
  match lookupA s.activeGroupConsumers (consumerKey q g wid) with
  | some info => info.shouldStop
  | none => false

/-- Embedding of the processPendingConsumers loop body (Queue.js 206-214):
shift entries off the pending list; for each, if the group is under quota,
start a consumer with fromPending = true (which never re-appends to the
pending list, so the loop consumes exactly the initial list). -/
def processPendingLoop (nConsumers : Nat) :
    List (String × String × String) → NodeState → NodeState
  | [], s => s
  | (q, g, gk) :: rest, s =>
      let s1 := { s with pendingGroupConsumers := rest }
      let s2 := if countActiveConsumersForGroup s1 q g < nConsumers
                then startGroupConsumer s1 q g (some gk) true nConsumers
                else s1
      processPendingLoop nConsumers rest s2

def processPendingConsumers (s : NodeState) (nConsumers : Nat) : NodeState :=
  processPendingLoop nConsumers s.pendingGroupConsumers s

/-- Embedding of stopGroupConsumer (Queue.js 193-204): if the record exists,
clear the local timer when this node owns the record and a timer is set,
delete the record, then drain the pending list. -/
def stopGroupConsumer (s : NodeState) (q g wid : String) (nConsumers : Nat) : NodeState :=
  match lookupA s.activeGroupConsumers (consumerKey q g wid) with
  | some info =>
      let key := consumerKey q g wid
      let s1 := if info.owner = s.instanceId ∧ (lookupA s.localTimers key).isSome
                then { s with localTimers := eraseA s.localTimers key }
                else s
      let s2 := { s1 with activeGroupConsumers := eraseA s1.activeGroupConsumers key }
      processPendingConsumers s2 nConsumers
  | none => s

/-- Invariant on node state (amendment of spec invariant I5): a localTimers
entry exists for a key iff the consumer record at that key exists and is
owned by this node. -/
def timerOwnerInv (s : NodeState) : Prop :=
  ∀ key : String, (lookupA s.localTimers key).isSome = true ↔
    ∃ info, lookupA s.activeGroupConsumers key = some info ∧ info.owner = s.instanceId

/-- Embedding of the QUEUE:NEWJOB message handler (Queue.js 143-154).
JSON.parse is modelled by its outcome: none means the payload is not valid
JSON, in which case JSON.parse throws; the handler installs no try/catch, so
the error propagates (Except.error). processMap is modelled by the nConsumers
registered per queue. -/
def onNewJobMessage (s : NodeState) (pm : List (String × Nat)) (channel : String)
    (decoded : Option (String × String)) : Except Unit NodeState :=
  if channel = "QUEUE:NEWJOB" then
    match decoded with
    | none => Except.error ()
    | some (queueName, groupName) =>
        match lookupA pm queueName with
        | some n => Except.ok (startGroupConsumer s queueName groupName none false n)
        | none => Except.ok s
  else Except.ok s

/-- The JSON payload published on QUEUE:NEWJOB by add. -/
def newJobPayload (q g : String) : String :=
  "\x7b\"queueName\":\"" ++ q ++ "\",\"groupName\":\"" ++ g ++ "\"\x7d"

/-- Embedding of add (Queue.js 318-340): run the enqueue script on the queue
and group keys, then publish the notification; a publish failure (modelled by
the flag) surfaces only after the enqueue has taken effect, and the enqueue is
not rolled back. -/
def addQueue (st : Store) (pub : List (String × String)) (q g payload : String)
    (publishFails : Bool) : Except Unit String × Store × List (String × String) :=
  let queueKey := "qube:" ++ q ++ ":groups"
  let groupKey := groupKeyOf q g
  let r := enqueueScript st queueKey groupKey payload g
  if publishFails then (Except.error (), r.2, pub)
  else (Except.ok r.1, r.2, pub ++ [("QUEUE:NEWJOB", newJobPayload q g)])

/-- The job object handed to the consumer callback: data is the JSON.parse of
the stored payload when truthy (none models null), groupName is undefined
(none) when the dequeued group name is falsy. -/
structure JSJob (α : Type) where
  id : String
  data : Option α
  groupName : Option String
deriving DecidableEq, Repr

/-- Worker-side job construction (Queue.js 254-261): jobDataRaw is truthy iff
non-empty, likewise groupNameFromJob; dec models JSON.parse. -/
def buildJob {α : Type} (dec : String → Option α) (jobId raw gname : String) :
    JSJob α :=
  { id := jobId,
    data := if raw = "" then none else dec raw,
    groupName := if gname = "" then none else some gname }

/-- The enqueue-then-dequeue pipeline for one job: add into (q, g) with the
publish succeeding, then one dequeue-script call on that group's list and the
worker's job construction. -/
def enqueueDequeueJob {α : Type} (dec : String → Option α) (st : Store)
    (q g payload : String) : Option (JSJob α) :=
  let st1 := (addQueue st [] q g payload false).2.1
  match (dequeueScript st1 (groupKeyOf q g)).1 with
  | some r => some (buildJob dec r.1 r.2.1 r.2.2)
  | none => none

/-- The observable action of one groupWorker loop iteration. -/
inductive WorkerAct
  | processed
  | slept
  | stopped
deriving DecidableEq, Repr

/-- One iteration of the groupWorker loop body (Queue.js 248-272): dequeue; on
a job, reset the inactivity timer and run it (runJob abstracts processJob with
the user callback and the status update); on nil, stop if the record says
shouldStop, otherwise sleep 1000 ms and continue. -/
def workerIter (runJob : Store → String → Store) (ns : NodeState) (st : Store)
    (q g gk wid : String) (n : Nat) : WorkerAct × NodeState × Store :=
  match (dequeueScript st gk).1 with
  | some r =>
      (WorkerAct.processed, resetGroupConsumerTimer ns q g wid,
       runJob (dequeueScript st gk).2 r.1)
  | none =>
      if checkGroupConsumerInactivity ns q g wid
      then (WorkerAct.stopped, stopGroupConsumer ns q g wid n, st)
      else (WorkerAct.slept, ns, st)

/-- The node and store state after k iterations of the worker loop. -/
def workerRun (runJob : Store → String → Store) : Nat → NodeState → Store →
    String → String → String → String → Nat → NodeState × Store
  | 0, ns, st, _, _, _, _, _ => (ns, st)
  | Nat.succ k, ns, st, q, g, gk, wid, n =>
      workerRun runJob k (workerIter runJob ns st q g gk wid n).2.1
        (workerIter runJob ns st q g gk wid n).2.2 q g gk wid n

/-- A fresh node with no consumers, timers or pending entries. -/
def ns0 : NodeState :=
  { instanceId := "node1", activeGroupConsumers := [], pendingGroupConsumers := [],
    localTimers := [], timerSeed := 0, widSeed := 0 }

/-- A node that already has one live consumer for (Q, G). -/
def ns4 : NodeState :=
  { instanceId := "node1",
    activeGroupConsumers :=
      [(consumerKey "Q" "G" "wx",
        { owner := "node1", shouldStop := false, workerId := "wx" })],
    pendingGroupConsumers := [],
    localTimers := [(consumerKey "Q" "G" "wx", 0)],
    timerSeed := 1, widSeed := 0 }

/-- A node whose consumer record for (Q, G, w0) is owned by this node and is
already stopping, with no timer set. -/
def ns5 : NodeState :=
  { instanceId := "node1",
    activeGroupConsumers :=
      [(consumerKey "Q" "G" "w0",
        { owner := "node1", shouldStop := true, workerId := "w0" })],
    pendingGroupConsumers := [], localTimers := [], timerSeed := 7, widSeed := 1 }

/-- Concrete payload codec for evaluation: a one-character tag in front. -/
def encJ (s : String) : String := "J" ++ s

def decJ (s : String) : Option String := some (s.drop 1)

theorem enqueue_lists (st : Store) (qk gk p gn k : String) :
    (enqueueScript st qk gk p gn).2.lists k =
      if k = gk then st.lists gk ++ [(enqueueScript st qk gk p gn).1] else st.lists k := by
  simp [enqueueScript, hsetS]

theorem dequeue_empty (st : Store) (gk : String) (h : st.lists gk = []) :
    dequeueScript st gk = (none, st) := by
  simp [dequeueScript, h]

theorem dequeue_cons (st : Store) (gk a : String) (rest : List String)
    (h : st.lists gk = a :: rest) :
    (dequeueScript st gk).1.map (fun r => r.1) = some a ∧
    ∀ k, (dequeueScript st gk).2.lists k = if k = gk then rest else st.lists k := by
  constructor
  · simp [dequeueScript, h]
  · intro k
    simp only [dequeueScript, h]
    split <;> simp [hsetS]

theorem fifo_invariant (ops : List QOp) :
    ∀ (st : Store) (G : String),
      deqIds st G ops ++ (runOps st ops).lists G = st.lists G ++ enqIds st G ops := by
  induction ops with
  | nil => intro st G; simp [deqIds, enqIds, runOps]
  | cons op rest ih =>
      intro st G
      cases op with
      | enq qk gk p gn =>
          simp only [deqIds, enqIds, runOps]
          rw [ih]
          rw [enqueue_lists]
          by_cases hgk : gk = G
          · subst hgk
            simp
          · have hGg : ¬ G = gk := fun hh => hgk hh.symm
            simp [hgk, hGg]
      | deq gk =>
          simp only [deqIds, enqIds, runOps]
          rw [List.append_assoc, ih]
          by_cases hgk : gk = G
          · subst hgk
            cases h : st.lists gk with
            | nil =>
                rw [dequeue_empty st gk h]
                simp [h]
            | cons a tl =>
                have hd := dequeue_cons st gk a tl h
                rw [hd.2 gk]
                simp only [if_pos rfl]
                rw [h]
                cases hr : (dequeueScript st gk).1 with
                | none =>
                    exfalso
                    have hx := hd.1
                    rw [hr] at hx
                    simp at hx
                | some r =>
                    have hr1 : r.1 = a := by
                      have hx := hd.1
                      rw [hr] at hx
                      simpa using hx
                    simp [hr, hr1]
          · have hGg : ¬ G = gk := fun hh => hgk hh.symm
            have hl : (dequeueScript st gk).2.lists G = st.lists G := by
              cases h : st.lists gk with
              | nil => rw [dequeue_empty st gk h]
              | cons a tl => rw [(dequeue_cons st gk a tl h).2 G]; simp [hGg]
            rw [hl]
            simp [hgk]

/-- C1: for every group list G, over any trace of enqueue-script and
dequeue-script calls starting from a store whose list at G is empty, the
sequence of jobIds returned by the dequeue script on G is a prefix of the
sequence of jobIds appended to G by the enqueue script (invariant I1,
FIFO per group). -/
theorem c1_fifo_per_group (ops : List QOp) (G : String) (st : Store)
    (h : st.lists G = []) :
    ∃ t, deqIds st G ops ++ t = enqIds st G ops := by
  refine ⟨(runOps st ops).lists G, ?_⟩
  have hinv := fifo_invariant ops st G
  rw [h] at hinv
  simpa using hinv

theorem c1_fifo_witness :
    store0.lists (groupKeyOf "CHANNEL" "G") = [] ∧
    ∃ t, deqIds store0 (groupKeyOf "CHANNEL" "G") opsW ++ t
        = enqIds store0 (groupKeyOf "CHANNEL" "G") opsW :=
  ⟨rfl, c1_fifo_per_group opsW (groupKeyOf "CHANNEL" "G") store0 rfl⟩

/-- C2: code bug. updateProgress (Queue.js line 219) writes the progress field
on the hash at key "qube:job:" ++ jobId, which is a different key from the Job
record "qube:queue:job:" ++ jobId that get_status.lua reads; so the write
never lands on the Job record, and get_status still sees nothing for that
job. Evaluated at jobId "1", value "50" on the empty store. -/
theorem c2_progress_key_mismatch :
    (updateProgress store0 "1" "50").hashes (jobRecordKey "1") "progress" = none ∧
    (updateProgress store0 "1" "50").hashes ("qube:job:" ++ "1") "progress" = some "50" ∧
    getStatusScript (updateProgress store0 "1" "50") "1" = none ∧
    jobRecordKey "1" ≠ "qube:job:" ++ "1" := by
  refine ⟨?_, ?_, ?_, ?_⟩ <;> decide

theorem lookupA_setA {β : Type} (l : List (String × β)) (k : String) (v : β)
    (kk : String) :
    lookupA (setA l k v) kk = if k = kk then some v else lookupA l kk := by
  induction l with
  | nil => simp [setA, lookupA]
  | cons e rest ih =>
      simp only [setA]
      by_cases h1 : e.1 = k
      · rw [if_pos h1]
        simp only [lookupA]
        by_cases h2 : k = kk
        · simp [h2]
        · rw [if_neg h2, if_neg h2]
          rw [if_neg (h1 ▸ h2 : ¬ e.1 = kk)]
      · rw [if_neg h1]
        simp only [lookupA]
        by_cases h2 : e.1 = kk
        · have hk : ¬ k = kk := fun hh => h1 (h2.trans hh.symm)
          rw [if_pos h2, if_neg hk, if_pos h2]
        · rw [if_neg h2, ih, if_neg h2]

theorem lookupA_eraseA {β : Type} (l : List (String × β)) (k kk : String) :
    lookupA (eraseA l k) kk = if kk = k then none else lookupA l kk := by
  induction l with
  | nil => simp [eraseA, lookupA]
  | cons e rest ih =>
      simp only [eraseA]
      by_cases h1 : e.1 = k
      · rw [if_pos h1, ih]
        by_cases h2 : kk = k
        · simp [h2]
        · have he : ¬ e.1 = kk := fun hh => h2 (hh.symm.trans h1)
          simp [h2, lookupA, he]
      · rw [if_neg h1]
        simp only [lookupA]
        by_cases h2 : e.1 = kk
        · have hk : ¬ kk = k := fun hh => h1 (h2.trans hh)
          simp [h2, hk]
        · simp [h2, ih]

theorem countA_setA_le (l : List (String × ConsumerInfo)) (k : String)
    (v : ConsumerInfo) (pre : String) :
    countA (setA l k v) pre ≤ countA l pre + 1 := by
  induction l with
  | nil =>
      simp only [setA, countA]
      split <;> omega
  | cons e rest ih =>
      simp only [setA]
      by_cases h1 : e.1 = k
      · rw [if_pos h1]
        simp only [countA, h1]
        omega
      · rw [if_neg h1]
        simp only [countA]
        cases hp : strIsPre pre e.1 <;> simp [hp] <;> omega

theorem enqueue_jobId (st : Store) (qk gk p gn : String) :
    (enqueueScript st qk gk p gn).1 = Nat.repr (st.counter + 1) := rfl

theorem enqueue_record (st : Store) (qk gk p gn : String) :
    (enqueueScript st qk gk p gn).2.hashes
        (jobRecordKey (Nat.repr (st.counter + 1))) "data" = some p ∧
    (enqueueScript st qk gk p gn).2.hashes
        (jobRecordKey (Nat.repr (st.counter + 1))) "group" = some gn ∧
    (enqueueScript st qk gk p gn).2.hashes
        (jobRecordKey (Nat.repr (st.counter + 1))) "status" = some "pending" := by
  refine ⟨?_, ?_, ?_⟩ <;> simp [enqueueScript, hsetS]

theorem dequeue_singleton (st : Store) (gk jid : String) (h : st.lists gk = [jid]) :
    (dequeueScript st gk).1 =
      some (jid, (st.hashes (jobRecordKey jid) "data").getD "",
            (st.hashes (jobRecordKey jid) "group").getD "") := by
  simp [dequeueScript, h]

/-- C3 counterexample: the claim carries the spec section 9 assertion that the
field this[scriptKey ++ "Script"] is never populated, so reload could not
work. After init the source field for the enqueue script is populated, and
safeEvalsha against a flushed script cache succeeds by reloading from it. -/
theorem c3_source_populated :
    ((initRegistry files0 cache0).1.src ScriptKey.enqueue).isSome = true ∧
    (safeEvalsha (initRegistry files0 cache0).1 cache0 (fun d => d)
        ScriptKey.enqueue).1
      = EvalResult.ok (digestOf (files0 ScriptKey.enqueue)) := by
  exact ⟨rfl, rfl⟩

/-- C3 (amended): for every script call through safeEvalsha, if the store
reports NOSCRIPT then the registry re-uploads the retained source
this[scriptKey ++ "Script"] exactly once, updates the cached digest for that
key only, and retries once; an error other than NOSCRIPT is re-thrown
unchanged with no reload; a success passes through unchanged. -/
theorem c3_safeEvalsha_reload {α : Type} (reg : Registry) (c : ScriptCache)
    (run : String → α) (key : ScriptKey) :
    (∀ s, evalsha c run (reg.sha key) = EvalResult.noscript → reg.src key = some s →
      safeEvalsha reg c run key =
        (evalsha (scriptLoad c s).2 run (digestOf s),
         { reg with sha := fun k => if k = key then digestOf s else reg.sha k },
         (scriptLoad c s).2)) ∧
    (∀ m, evalsha c run (reg.sha key) = EvalResult.err m →
      safeEvalsha reg c run key = (EvalResult.err m, reg, c)) ∧
    (∀ v, evalsha c run (reg.sha key) = EvalResult.ok v →
      safeEvalsha reg c run key = (EvalResult.ok v, reg, c)) := by
  refine ⟨?_, ?_, ?_⟩
  · intro s h1 h2
    simp [safeEvalsha, h1, h2, scriptLoad]
  · intro m h1
    simp [safeEvalsha, h1]
  · intro v h1
    simp [safeEvalsha, h1]

theorem c3_safeEvalsha_witness :
    safeEvalsha regStale cacheFault (fun d => d) ScriptKey.enqueue
      = (EvalResult.err "boom", regStale, cacheFault) :=
  (c3_safeEvalsha_reload regStale cacheFault (fun d => d) ScriptKey.enqueue).2.1
    "boom" rfl

/-- C4: when the global count for (queue, group) is at or above nConsumers,
startGroupConsumer spawns no worker (the consumer registry and timers are
untouched) and, when fromPending is false, appends (queue, group, groupKey)
to pendingGroupConsumers; and the operation preserves the per-group bound
count ≤ nConsumers (invariant I2). -/
theorem c4_quota (s : NodeState) (q g : String) (gk : Option String) (fp : Bool)
    (n : Nat) :
    (n ≤ countActiveConsumersForGroup s q g →
      (startGroupConsumer s q g gk fp n).activeGroupConsumers
          = s.activeGroupConsumers ∧
      (startGroupConsumer s q g gk fp n).localTimers = s.localTimers ∧
      (startGroupConsumer s q g gk fp n).pendingGroupConsumers =
        (if fp then s.pendingGroupConsumers
         else s.pendingGroupConsumers ++ [(q, g, gk.getD (groupKeyOf q g))])) ∧
    (countActiveConsumersForGroup s q g ≤ n →
      countActiveConsumersForGroup (startGroupConsumer s q g gk fp n) q g ≤ n) := by
  constructor
  · intro h
    simp only [startGroupConsumer, if_pos h]
    cases fp <;> simp
  · intro h
    by_cases hc : n ≤ countActiveConsumersForGroup s q g
    · simp only [startGroupConsumer, if_pos hc]
      cases fp <;> simpa [countActiveConsumersForGroup] using h
    · simp only [startGroupConsumer, if_neg hc]
      simp only [countActiveConsumersForGroup] at hc ⊢
      have hle := countA_setA_le s.activeGroupConsumers
        (consumerKey q g ("w" ++ Nat.repr s.widSeed))
        { owner := s.instanceId, shouldStop := false,
          workerId := "w" ++ Nat.repr s.widSeed }
        (groupPre q g)
      omega

theorem c4_quota_witness :
    (startGroupConsumer ns4 "Q" "G" none false 1).activeGroupConsumers
        = ns4.activeGroupConsumers ∧
    (startGroupConsumer ns4 "Q" "G" none false 1).localTimers = ns4.localTimers ∧
    (startGroupConsumer ns4 "Q" "G" none false 1).pendingGroupConsumers
        = ns4.pendingGroupConsumers ++ [("Q", "G", groupKeyOf "Q" "G")] ∧
    countActiveConsumersForGroup (startGroupConsumer ns4 "Q" "G" none false 1)
        "Q" "G" ≤ 1 := by
  have h := c4_quota ns4 "Q" "G" none false 1
  have h1 := h.1 (by decide)
  have h2 := h.2 (by decide)
  exact ⟨h1.1, h1.2.1, by simpa using h1.2.2, h2⟩

/-- C5 counterexample: a record owned by this node with shouldStop already
true; resetGroupConsumerTimer nevertheless changes the timer state, while the
claim says the timer state is left unchanged unless shouldStop is false. -/
theorem c5_resets_when_stopping :
    (lookupA ns5.activeGroupConsumers
        (consumerKey "Q" "G" "w0")).map ConsumerInfo.shouldStop = some true ∧
    (resetGroupConsumerTimer ns5 "Q" "G" "w0").localTimers ≠ ns5.localTimers := by
  exact ⟨rfl, by decide⟩

/-- C5 (amended): resetGroupConsumerTimer reschedules the inactivity timer iff
the consumer record exists and its owner equals this node's instanceId,
regardless of the record's shouldStop flag; when the record is absent or
foreign-owned it leaves the state unchanged. -/
theorem c5_reset_characterisation (s : NodeState) (q g wid : String) :
    (∀ info, lookupA s.activeGroupConsumers (consumerKey q g wid) = some info →
      (info.owner = s.instanceId →
        resetGroupConsumerTimer s q g wid =
          { s with localTimers := setA s.localTimers (consumerKey q g wid) s.timerSeed,
                   timerSeed := s.timerSeed + 1 }) ∧
      (info.owner ≠ s.instanceId → resetGroupConsumerTimer s q g wid = s)) ∧
    (lookupA s.activeGroupConsumers (consumerKey q g wid) = none →
      resetGroupConsumerTimer s q g wid = s) := by
  constructor
  · intro info hl
    constructor
    · intro ho
      simp [resetGroupConsumerTimer, hl, ho]
    · intro ho
      simp [resetGroupConsumerTimer, hl, ho]
  · intro hl
    simp [resetGroupConsumerTimer, hl]

theorem c5_reset_witness :
    resetGroupConsumerTimer ns5 "Q" "G" "w0" =
      { ns5 with
          localTimers := setA ns5.localTimers (consumerKey "Q" "G" "w0") ns5.timerSeed,
          timerSeed := ns5.timerSeed + 1 } :=
  ((c5_reset_characterisation ns5 "Q" "G" "w0").1
      { owner := "node1", shouldStop := true, workerId := "w0" } rfl).1 rfl

theorem inv_startGroupConsumer (s : NodeState) (q g : String) (gk : Option String)
    (fp : Bool) (n : Nat) (h : timerOwnerInv s) :
    timerOwnerInv (startGroupConsumer s q g gk fp n) := by
  simp only [startGroupConsumer]
  by_cases hc : n ≤ countActiveConsumersForGroup s q g
  · rw [if_pos hc]
    cases fp
    · intro key
      simpa using h key
    · intro key
      simpa using h key
  · rw [if_neg hc]
    intro key
    by_cases hk : consumerKey q g ("w" ++ Nat.repr s.widSeed) = key
    · subst hk
      simp [lookupA_setA]
    · simp [lookupA_setA, hk]
      simpa using h key

theorem inv_resetGroupConsumerTimer (s : NodeState) (q g wid : String)
    (h : timerOwnerInv s) : timerOwnerInv (resetGroupConsumerTimer s q g wid) := by
  cases hl : lookupA s.activeGroupConsumers (consumerKey q g wid) with
  | none => simpa [resetGroupConsumerTimer, hl] using h
  | some info =>
      by_cases ho : info.owner = s.instanceId
      · intro key
        simp only [resetGroupConsumerTimer, hl, if_pos ho]
        by_cases hk : consumerKey q g wid = key
        · subst hk
          simp [lookupA_setA]
          exact ⟨info, hl, ho⟩
        · simp [lookupA_setA, hk]
          simpa using h key
      · simpa [resetGroupConsumerTimer, hl, if_neg ho] using h

theorem inv_timerFire (s : NodeState) (q g wid : String) (h : timerOwnerInv s) :
    timerOwnerInv (timerFire s q g wid) := by
  cases hl : lookupA s.activeGroupConsumers (consumerKey q g wid) with
  | none => simpa [timerFire, hl] using h
  | some info =>
      by_cases hs : info.shouldStop
      · simpa [timerFire, hl, hs] using h
      · intro key
        simp only [timerFire, hl, if_neg hs]
        by_cases hk : consumerKey q g wid = key
        · subst hk
          have hkey := h (consumerKey q g wid)
          rw [hl] at hkey
          simp at hkey
          simp [lookupA_setA]
          simpa using hkey
        · simp [lookupA_setA, hk]
          simpa using h key

theorem inv_processPendingLoop (n : Nat) (pend : List (String × String × String)) :
    ∀ s : NodeState, timerOwnerInv s → timerOwnerInv (processPendingLoop n pend s) := by
  induction pend with
  | nil =>
      intro s h
      simpa [processPendingLoop] using h
  | cons e rest ih =>
      intro s h
      obtain ⟨q, g, gk⟩ := e
      simp only [processPendingLoop]
      apply ih
      have h1 : timerOwnerInv { s with pendingGroupConsumers := rest } := by
        intro key
        simpa using h key
      by_cases hcnt :
          countActiveConsumersForGroup { s with pendingGroupConsumers := rest } q g < n
      · rw [if_pos hcnt]
        exact inv_startGroupConsumer _ q g (some gk) true n h1
      · rw [if_neg hcnt]
        exact h1

theorem inv_stopGroupConsumer (s : NodeState) (q g wid : String) (n : Nat)
    (h : timerOwnerInv s) : timerOwnerInv (stopGroupConsumer s q g wid n) := by
  cases hl : lookupA s.activeGroupConsumers (consumerKey q g wid) with
  | none => simpa [stopGroupConsumer, hl] using h
  | some info =>
      simp only [stopGroupConsumer, hl, processPendingConsumers]
      apply inv_processPendingLoop
      by_cases ho : info.owner = s.instanceId
      · have ht : (lookupA s.localTimers (consumerKey q g wid)).isSome = true :=
          (h (consumerKey q g wid)).mpr ⟨info, hl, ho⟩
        rw [if_pos ⟨ho, ht⟩]
        intro key
        by_cases hk : key = consumerKey q g wid
        · subst hk
          simp [lookupA_eraseA]
        · simp [lookupA_eraseA, hk]
          simpa using h key
      · have ht : ¬ (lookupA s.localTimers (consumerKey q g wid)).isSome = true := by
          intro hcon
          obtain ⟨info2, hl2, ho2⟩ := (h _).mp hcon
          rw [hl] at hl2
          cases hl2
          exact ho ho2
        rw [if_neg (fun hcon => ht hcon.2)]
        intro key
        by_cases hk : key = consumerKey q g wid
        · subst hk
          simp [lookupA_eraseA]
          simpa using ht
        · simp [lookupA_eraseA, hk]
          simpa using h key

/-- C6 counterexample: starting from a fresh node, spawn a consumer for
(Q, G), then let its inactivity timer fire. The timer callback flips
shouldStop to true but does not clear the localTimers entry, so localTimers
holds the key while the record's shouldStop is true, refuting invariant I5 as
stated. -/
theorem c6_timer_entry_survives_fire :
    (lookupA (timerFire (startGroupConsumer ns0 "Q" "G" none false 1)
        "Q" "G" "w0").localTimers (consumerKey "Q" "G" "w0")).isSome = true ∧
    lookupA (timerFire (startGroupConsumer ns0 "Q" "G" none false 1)
        "Q" "G" "w0").activeGroupConsumers (consumerKey "Q" "G" "w0")
      = some { owner := "node1", shouldStop := true, workerId := "w0" } ∧
    (timerFire (startGroupConsumer ns0 "Q" "G" none false 1)
        "Q" "G" "w0").instanceId = "node1" := by
  refine ⟨?_, ?_, ?_⟩ <;> decide

/-- C6 (amended): the invariant that holds and is preserved drops the
shouldStop conjunct — localTimers has an entry for a consumerKey iff the
consumer record exists there with owner equal to this node's instanceId; this
equivalence is preserved by startGroupConsumer, resetGroupConsumerTimer, the
inactivity-timer callback, and stopGroupConsumer (including its pending
drain). -/
theorem c6_timer_owner_invariant (s : NodeState) (q g wid : String)
    (gk : Option String) (fp : Bool) (n : Nat) (h : timerOwnerInv s) :
    timerOwnerInv (startGroupConsumer s q g gk fp n) ∧
    timerOwnerInv (resetGroupConsumerTimer s q g wid) ∧
    timerOwnerInv (timerFire s q g wid) ∧
    timerOwnerInv (stopGroupConsumer s q g wid n) :=
  ⟨inv_startGroupConsumer s q g gk fp n h,
   inv_resetGroupConsumerTimer s q g wid h,
   inv_timerFire s q g wid h,
   inv_stopGroupConsumer s q g wid n h⟩

theorem c6_timer_owner_witness :
    timerOwnerInv (startGroupConsumer ns0 "Q" "G" none false 1) := by
  have h0 : timerOwnerInv ns0 := by
    intro key
    simp [ns0, lookupA]
  exact (c6_timer_owner_invariant ns0 "Q" "G" "w0" none false 1 h0).1

/-- C7 counterexample: a message on QUEUE:NEWJOB whose payload is not valid
JSON (decoded = none) makes the handler raise, because Queue.js 143-154 wraps
JSON.parse in no try/catch; the claim says the error is logged and dropped
without raising. -/
theorem c7_malformed_raises :
    onNewJobMessage ns0 [("CHANNEL", 1)] "QUEUE:NEWJOB" none = Except.error () ∧
    (Except.error () : Except Unit NodeState) ≠ Except.ok ns0 := by
  exact ⟨rfl, by simp⟩

/-- C7 (amended): on the QUEUE:NEWJOB channel, a payload that is not valid
JSON makes the handler raise (the JSON.parse error propagates, there is no
try/catch); a well-formed payload is parsed as (queueName, groupName) and
routed to startGroupConsumer with the registered nConsumers when processMap
contains the queue, and ignored otherwise. -/
theorem c7_handler_characterisation (s : NodeState) (pm : List (String × Nat))
    (channel : String) (decoded : Option (String × String)) :
    (channel = "QUEUE:NEWJOB" → decoded = none →
      onNewJobMessage s pm channel decoded = Except.error ()) ∧
    (∀ q g n, channel = "QUEUE:NEWJOB" → decoded = some (q, g) →
      lookupA pm q = some n →
      onNewJobMessage s pm channel decoded
        = Except.ok (startGroupConsumer s q g none false n)) ∧
    (∀ q g, channel = "QUEUE:NEWJOB" → decoded = some (q, g) →
      lookupA pm q = none →
      onNewJobMessage s pm channel decoded = Except.ok s) := by
  refine ⟨?_, ?_, ?_⟩
  · intro hc hd
    subst hc; subst hd
    simp [onNewJobMessage]
  · intro q g n hc hd hm
    subst hc; subst hd
    simp [onNewJobMessage, hm]
  · intro q g hc hd hm
    subst hc; subst hd
    simp [onNewJobMessage, hm]

theorem c7_handler_witness :
    onNewJobMessage ns0 [("CHANNEL", 1)] "QUEUE:NEWJOB" (some ("CHANNEL", "G"))
      = Except.ok (startGroupConsumer ns0 "CHANNEL" "G" none false 1) :=
  (c7_handler_characterisation ns0 [("CHANNEL", 1)] "QUEUE:NEWJOB"
      (some ("CHANNEL", "G"))).2.1 "CHANNEL" "G" 1 rfl rfl rfl

/-- C8: add runs the enqueue script first and publishes afterwards: in both
outcomes of the publish step the jobId has been appended to the group list
(the enqueue is not rolled back on publish failure), a failed publish
surfaces as the error with nothing published and the same store as on
success, and a successful add returns the jobId produced by the enqueue
script and publishes the notification. -/
theorem c8_add_no_rollback (st : Store) (pub : List (String × String))
    (q g payload : String) (pf : Bool) :
    ((addQueue st pub q g payload pf).2.1.lists (groupKeyOf q g)
        = st.lists (groupKeyOf q g) ++ [Nat.repr (st.counter + 1)]) ∧
    (pf = true →
      (addQueue st pub q g payload pf).1 = Except.error () ∧
      (addQueue st pub q g payload pf).2.2 = pub ∧
      (addQueue st pub q g payload pf).2.1
        = (addQueue st pub q g payload false).2.1) ∧
    (pf = false →
      (addQueue st pub q g payload pf).1 = Except.ok (Nat.repr (st.counter + 1)) ∧
      (addQueue st pub q g payload pf).2.2
        = pub ++ [("QUEUE:NEWJOB", newJobPayload q g)]) := by
  refine ⟨?_, ?_, ?_⟩
  · cases pf <;> simp [addQueue, enqueue_lists, enqueue_jobId]
  · intro hp
    subst hp
    exact ⟨rfl, rfl, rfl⟩
  · intro hp
    subst hp
    exact ⟨rfl, rfl⟩

theorem c8_add_witness :
    (addQueue store0 [] "CHANNEL" "G" "Jhola" true).1 = Except.error () ∧
    (addQueue store0 [] "CHANNEL" "G" "Jhola" true).2.2 = [] ∧
    (addQueue store0 [] "CHANNEL" "G" "Jhola" true).2.1
      = (addQueue store0 [] "CHANNEL" "G" "Jhola" false).2.1 :=
  (c8_add_no_rollback store0 [] "CHANNEL" "G" "Jhola" true).2.1 rfl

/-- C9 counterexample: enqueue into the group named "" (empty string). The
worker-side construction (Queue.js line 259) treats the dequeued group name
as falsy and sets job.groupName to undefined (none), so the job handed to the
callback does not carry the group it was enqueued into. -/
theorem c9_empty_group_name :
    enqueueDequeueJob decJ store0 "CHANNEL" "" (encJ "hola")
      = some { id := "1", data := some "hola", groupName := none } ∧
    (none : Option String) ≠ some "" := by
  exact ⟨rfl, by simp⟩

/-- C9 (amended): for every payload d enqueued via add into (q, g), if the
JSON codec round-trips d, its encoding is non-empty, the group name is
non-empty, and the group list starts empty, then the job built by the worker
from the following dequeue carries the jobId returned by add, data equal to
the input, and groupName equal to the group it was enqueued into. -/
theorem c9_roundtrip {α : Type} (st : Store) (q g : String) (d : α)
    (enc : α → String) (dec : String → Option α)
    (hrt : dec (enc d) = some d) (henc : ¬ enc d = "") (hg : ¬ g = "")
    (hempty : st.lists (groupKeyOf q g) = []) :
    enqueueDequeueJob dec st q g (enc d)
      = some { id := Nat.repr (st.counter + 1), data := some d,
               groupName := some g } := by
  have hst1 : (addQueue st [] q g (enc d) false).2.1
      = (enqueueScript st ("qube:" ++ q ++ ":groups") (groupKeyOf q g) (enc d) g).2 :=
    rfl
  have hl : (addQueue st [] q g (enc d) false).2.1.lists (groupKeyOf q g)
      = [Nat.repr (st.counter + 1)] := by
    rw [hst1, enqueue_lists]
    simp [hempty, enqueue_jobId]
  have hrec := enqueue_record st ("qube:" ++ q ++ ":groups") (groupKeyOf q g) (enc d) g
  have hdq := dequeue_singleton ((addQueue st [] q g (enc d) false).2.1)
      (groupKeyOf q g) (Nat.repr (st.counter + 1)) hl
  simp only [enqueueDequeueJob, hdq]
  rw [hst1] at hdq ⊢
  simp [hdq, hst1, hrec.1, hrec.2.1, buildJob, henc, hg, hrt]

theorem c9_roundtrip_witness :
    enqueueDequeueJob decJ store0 "CHANNEL" "573205104418" (encJ "hola")
      = some { id := "1", data := some "hola", groupName := some "573205104418" } :=
  c9_roundtrip store0 "CHANNEL" "573205104418" "hola" encJ decJ rfl
    (by decide) (by decide) rfl

/-- C10: if the consumer record for (queue, group, workerId) is absent from
activeGroupConsumers, checkGroupConsumerInactivity returns false, and on an
empty group list the worker iteration sleeps without ever stopping: every
number of iterations leaves the node and store state unchanged, so the worker
loops forever instead of terminating. -/
theorem c10_absent_record_loops (runJob : Store → String → Store) (ns : NodeState)
    (st : Store) (q g gk wid : String) (n : Nat)
    (hrec : lookupA ns.activeGroupConsumers (consumerKey q g wid) = none)
    (hempty : st.lists gk = []) :
    checkGroupConsumerInactivity ns q g wid = false ∧
    workerIter runJob ns st q g gk wid n = (WorkerAct.slept, ns, st) ∧
    ∀ k, workerRun runJob k ns st q g gk wid n = (ns, st) := by
  have hchk : checkGroupConsumerInactivity ns q g wid = false := by
    simp [checkGroupConsumerInactivity, hrec]
  have hiter : workerIter runJob ns st q g gk wid n = (WorkerAct.slept, ns, st) := by
    simp [workerIter, dequeue_empty st gk hempty, hchk]
  refine ⟨hchk, hiter, ?_⟩
  intro k
  induction k with
  | zero => rfl
  | succ k ih => simp [workerRun, hiter, ih]

theorem c10_absent_record_witness :
    checkGroupConsumerInactivity ns0 "Q" "G" "w9" = false ∧
    workerRun (fun st _ => st) 5 ns0 store0 "Q" "G"
      (groupKeyOf "Q" "G") "w9" 1 = (ns0, store0) := by
  have h := c10_absent_record_loops (fun st _ => st) ns0 store0 "Q" "G"
    (groupKeyOf "Q" "G") "w9" 1 rfl rfl
  exact ⟨h.1, h.2.2 5⟩

end Qube
